import Mathlib

/-!
Shallow embedding of the `Recorder` class of canvas-record (src/index.js,
provided as src/unnamed/part_000) and proofs about its recording lifecycle.

Numbers: JavaScript numeric fields that hold finite values are modelled as
rationals (exact arithmetic; the spec grants floating-point epsilon).  The
`duration` option may be `Infinity`, and `frameTotal = duration * frameRate`
inherits it, so those two fields are modelled by `JNum`, a rational extended
with an infinity point.

Statuses: the frozen `RecorderStatus` enum in the source has exactly five
keys (Ready 0, Initializing 1, Recording 2, Stopping 3, Stopped 4).  The
code nevertheless evaluates `RecorderStatus.Initialized`, which is the
JavaScript value `undefined`; `init()` stores it and `start()` compares
against it (`undefined === undefined` holds, so the guard passes).  We model
this distinguished `undefined` value as the extra constructor `Initialized`,
distinct from the five enum members, exactly as the spec names it.
-/

namespace CanvasRecord

/-- Recorder status values: the five frozen enum members plus `Initialized`,
the JavaScript `undefined` obtained by reading the missing enum key
`RecorderStatus.Initialized` (stored by `init()` and checked by `start()`). -/
inductive RecorderStatus where
  | Ready
  | Initializing
  | Recording
  | Stopping
  | Stopped
  | Initialized
deriving DecidableEq

/-- JavaScript number restricted to the values the recorder's `duration` and
`frameTotal` fields can take: a finite rational, `Infinity`, `-Infinity`,
or `NaN` (the latter two arise from `duration * frameRate` when
`duration = Infinity` meets a nonpositive frame rate). -/
inductive JNum where
  | fin : ℚ → JNum
  | inf : JNum
  | negInf : JNum
  | nan : JNum
deriving DecidableEq

/-- Multiplication of a `JNum` by a rational, as used in
`this.frameTotal = this.duration * this.frameRate`, following JavaScript:
`Infinity * q` is `Infinity` for positive `q`, `-Infinity` for negative
`q`, and `NaN` for `q = 0` (symmetrically for `-Infinity`), and `NaN`
propagates. -/
def JNum.mul : JNum → ℚ → JNum
  | JNum.fin x, q => JNum.fin (x * q)
  | JNum.inf, q =>
      if 0 < q then JNum.inf else if q < 0 then JNum.negInf else JNum.nan
  | JNum.negInf, q =>
      if 0 < q then JNum.negInf else if q < 0 then JNum.inf else JNum.nan
  | JNum.nan, _ => JNum.nan

/-- The comparison `this.frame < this.frameTotal`: a natural frame counter
against the frame total.  In JavaScript `n < Infinity` is true, while
`n < -Infinity` is false for a nonnegative counter and any comparison with
`NaN` is false. -/
def JNum.natLt (n : ℕ) : JNum → Prop
  | JNum.fin q => (n : ℚ) < q
  | JNum.inf => True
  | JNum.negInf => False
  | JNum.nan => False

instance (n : ℕ) (a : JNum) : Decidable (JNum.natLt n a) := by
  cases a with
  | fin q => exact inferInstanceAs (Decidable ((n : ℚ) < q))
  | inf => exact inferInstanceAs (Decidable True)
  | negInf => exact inferInstanceAs (Decidable False)
  | nan => exact inferInstanceAs (Decidable False)

/-- Nonnegativity of a `JNum` (used to say a duration is valid: the
documented range is 0 to Infinity, so `-Infinity` and `NaN` are not valid
durations). -/
def JNum.Nonneg : JNum → Prop
  | JNum.fin q => 0 ≤ q
  | JNum.inf => True
  | JNum.negInf => False
  | JNum.nan => False

instance (a : JNum) : Decidable (JNum.Nonneg a) := by
  cases a with
  | fin q => exact inferInstanceAs (Decidable ((0 : ℚ) ≤ q))
  | inf => exact inferInstanceAs (Decidable True)
  | negInf => exact inferInstanceAs (Decidable False)
  | nan => exact inferInstanceAs (Decidable False)

/-- Mutable per-session fields of a `Recorder` instance that the lifecycle
methods read and write: `this.status`, `this.time`, `this.frame`,
`this.deltaTime`, `this.frameTotal`.  The constructor leaves the numeric
fields `undefined`; we initialise them to zero — no modelled method reads
them before `init()` assigns them (the `step()` guard short-circuits on
`status`). -/
structure RecState where
  status : RecorderStatus
  time : ℚ
  frame : ℕ
  deltaTime : ℚ
  frameTotal : JNum
deriving DecidableEq

/-- Observable effects emitted while the lifecycle methods run: calls to the
`onStatusChange` observer (via `#updateStatus`), calls to `encoder.encode`
with the current frame index, and the calls to `encoder.init` and
`encoder.stop`. -/
inductive Event where
  | statusChange : RecorderStatus → Event
  | encode : ℕ → Event
  | encoderInit : Event
  | encoderStop : Event
deriving DecidableEq

/-- The `Recorder` constructor: stores the context and options and sets
status `Ready` through `#updateStatus` (one observer call).  Numeric session
fields are still `undefined` in JavaScript; see `RecState`. -/
def construct : RecState × List Event :=
  ({ status := RecorderStatus.Ready, time := 0, frame := 0, deltaTime := 0,
     frameTotal := JNum.fin 0 },
   [Event.statusChange RecorderStatus.Ready])

/-- The private `init()` method: sets status `Initializing`, then
`deltaTime = 1 / frameRate`, `time = 0`, `frame = 0`,
`frameTotal = duration * frameRate`, awaits `encoder.init` (modelled as
succeeding; its failure would reject `start()` early), then stores
`RecorderStatus.Initialized` (the `undefined` value). -/
def Recorder.init (duration : JNum) (frameRate : ℚ) (s : RecState) :
    RecState × List Event :=
  ({ s with
      status := RecorderStatus.Initialized,
      deltaTime := 1 / frameRate,
      time := 0,
      frame := 0,
      frameTotal := duration.mul frameRate },
   [Event.statusChange RecorderStatus.Initializing, Event.encoderInit,
    Event.statusChange RecorderStatus.Initialized])

/-- The `stop()` method: if the status is not `Recording` it returns
`undefined` at once (no observer call, no `encoder.stop`, no state change);
otherwise it sets `Stopping`, awaits `encoder.stop()` for the buffer,
optionally downloads it, sets `Stopped` and returns the buffer.  The third
component is `some ()` exactly when the encoder's buffer is returned. -/
def Recorder.stop (s : RecState) : RecState × List Event × Option Unit :=
  if s.status ≠ RecorderStatus.Recording then (s, [], none)
  else
    ({ s with status := RecorderStatus.Stopped },
     [Event.statusChange RecorderStatus.Stopping, Event.encoderStop,
      Event.statusChange RecorderStatus.Stopped],
     some ())

/-- The `step()` method: while `Recording` and `frame < frameTotal` it
encodes one frame (passing `this.frame` to `encoder.encode`), then advances
`time` by `deltaTime` and increments `frame`; otherwise it delegates to
`stop()` (discarding its return value — `step()` itself returns
`undefined`). -/
def Recorder.step (s : RecState) : RecState × List Event :=
  if s.status = RecorderStatus.Recording ∧ JNum.natLt s.frame s.frameTotal then
    ({ s with time := s.time + s.deltaTime, frame := s.frame + 1 },
     [Event.encode s.frame])
  else
    ((Recorder.stop s).1, (Recorder.stop s).2.1)

/-- The `start()` method: awaits `init()`, aborts if the status is not
`RecorderStatus.Initialized`, otherwise records the start time and filename,
sets status `Recording` and awaits an initial `step()`. -/
def Recorder.start (duration : JNum) (frameRate : ℚ) (s : RecState) :
    RecState × List Event :=
  let p1 := Recorder.init duration frameRate s
  if p1.1.status ≠ RecorderStatus.Initialized then p1
  else
    let s2 := { p1.1 with status := RecorderStatus.Recording }
    let p3 := Recorder.step s2
    (p3.1, p1.2 ++ [Event.statusChange RecorderStatus.Recording] ++ p3.2)

/-- Iterate `step()` a given number of times, concatenating the emitted
events in call order. -/
def runSteps : ℕ → RecState → RecState × List Event
  | 0, s => (s, [])
  | n + 1, s =>
    let p1 := Recorder.step s
    let p2 := runSteps n p1.1
    (p2.1, p1.2 ++ p2.2)

/-- A public call a caller may make on a live session after `start()`. -/
inductive Call where
  | step
  | stop
deriving DecidableEq

/-- Run a list of caller-issued `step()` / `stop()` calls in order. -/
def runCalls : List Call → RecState → RecState × List Event
  | [], s => (s, [])
  | c :: cs, s =>
    let p1 :=
      match c with
      | Call.step => Recorder.step s
      | Call.stop => ((Recorder.stop s).1, (Recorder.stop s).2.1)
    let p2 := runCalls cs p1.1
    (p2.1, p1.2 ++ p2.2)

/-- The subsequence of status values delivered to the `onStatusChange`
observer, extracted from an event list. -/
def statusTrace (evs : List Event) : List RecorderStatus :=
  evs.filterMap fun e =>
    match e with
    | Event.statusChange st => some st
    | _ => none

/-- The canonical status order named by the spec:
Ready, Initializing, Initialized, Recording, Stopping, Stopped. -/
def canonicalStatuses : List RecorderStatus :=
  [RecorderStatus.Ready, RecorderStatus.Initializing,
   RecorderStatus.Initialized, RecorderStatus.Recording,
   RecorderStatus.Stopping, RecorderStatus.Stopped]

/-- The `getSupportedExtension()` method, as a function of the requested
extension and the current encoder's static `supportedExtensions` array: if
the requested extension is included it is kept (no warning); otherwise the
encoder's first supported extension (`supportedExtensions[0]`, `undefined`
on an empty array, hence `Option`) is returned and `console.warn` is called
once.  The second component counts the `console.warn` calls. -/
def getSupportedExtension (extension : String)
    (supportedExtensions : List String) : Option String × ℕ :=
  let isExtensionSupported := supportedExtensions.contains extension
  ((if isExtensionSupported then some extension
    else supportedExtensions.head?),
   if isExtensionSupported then 0 else 1)

/-- The encoder backends the constructor can select, plus user-supplied
instances (`custom`). -/
inductive EncoderBackend where
  | GIFEncoder
  | FrameEncoder
  | WebCodecsEncoder
  | H264MP4Encoder
  | custom : ℕ → EncoderBackend
deriving DecidableEq

/-- Encoder selection in the `Recorder` constructor: if `options.encoder`
was supplied it is kept as-is; otherwise extension "gif" selects
`GIFEncoder`, extensions "png"/"jpg" select `FrameEncoder`, and anything
else selects `WebCodecsEncoder` when `isWebCodecsSupported` holds, else
`H264MP4Encoder`.  The runtime capability probe `isWebCodecsSupported`
(from utils.js) is passed in as a boolean. -/
def selectEncoder (encoderOpt : Option EncoderBackend) (extension : String)
    (isWebCodecsSupported : Bool) : EncoderBackend :=
  match encoderOpt with
  | some e => e
  | none =>
    if extension = "gif" then EncoderBackend.GIFEncoder
    else if ["png", "jpg"].contains extension then EncoderBackend.FrameEncoder
    else if isWebCodecsSupported then EncoderBackend.WebCodecsEncoder
    else EncoderBackend.H264MP4Encoder

/-- Models `TypedArray.prototype.set(src.subarray(srcOff, srcOff + len),
dstOff)`: bytes `[dstOff, dstOff + len)` of the destination are overwritten
by bytes `[srcOff, srcOff + len)` of the source.  Buffers are modelled as
index-to-byte functions. -/
def blockSet (dst src : ℕ → ℕ) (dstOff srcOff len : ℕ) : ℕ → ℕ :=
  fun idx =>
    if dstOff ≤ idx ∧ idx < dstOff + len then src (srcOff + (idx - dstOff))
    else dst idx

/-- The flip loop of `getFrame`'s "imageData" branch, unrolled over its
iteration count: iteration `r` (with `i = r * row`) performs
`pixelsFlipped.set(pixels.subarray(i, i + row), end - i)`; later iterations
are applied on top of earlier ones, as in the ascending JavaScript loop. -/
def flipLoop (pixels acc : ℕ → ℕ) (row endOff : ℕ) : ℕ → (ℕ → ℕ)
  | 0 => acc
  | n + 1 =>
    blockSet (flipLoop pixels acc row endOff n) pixels (endOff - n * row)
      (n * row) row

/-- The "imageData" branch of `getFrame` for a context exposing
`drawingBufferWidth` (a bottom-up surface): after `readPixels` fills
`pixels` (modelled by the `pixels` argument, `width * height * 4` RGBA
bytes), a fresh zero-filled `pixelsFlipped` of the same length receives one
row per loop iteration; `row = width * 4`, `end = (height - 1) * row`, and
the loop runs `i = 0, row, 2*row, …` while `i < length`, i.e. `height`
times. -/
def flipVertical (width height : ℕ) (pixels : ℕ → ℕ) : ℕ → ℕ :=
  flipLoop pixels (fun _ => 0) (width * 4) ((height - 1) * (width * 4)) height

/-- The frame value handed to `encoder.encode` on the raw-pixel
("imageData") path when the context exposes `drawingBufferWidth`: the
vertically flipped pixel buffer. -/
def getFrameImageData (drawingBufferWidth drawingBufferHeight : ℕ)
    (pixels : ℕ → ℕ) : ℕ → ℕ :=
  flipVertical drawingBufferWidth drawingBufferHeight pixels

/-- The drawing surface as the width/height accessors see it:
`drawingBufferWidth`/`drawingBufferHeight` are `undefined` (`none`) on 2D
contexts, and the canvas always has `width`/`height`. -/
structure RenderingContext where
  drawingBufferWidth : Option ℕ
  drawingBufferHeight : Option ℕ
  canvasWidth : ℕ
  canvasHeight : ℕ
deriving DecidableEq

/-- JavaScript `a || b` for a possibly-undefined number `a`: `undefined` and
`0` are falsy and fall through to `b`. -/
def jsOrNat (a : Option ℕ) (b : ℕ) : ℕ :=
  match a with
  | some v => if v = 0 then b else v
  | none => b

/-- The fields the width/height accessors touch: the bound context and the
encoder's own `width`/`height` properties (which the setters assign). -/
structure RecorderDims where
  context : RenderingContext
  encoderWidth : Option ℕ
  encoderHeight : Option ℕ
deriving DecidableEq

/-- The getter `get width()`: `this.context.drawingBufferWidth ||
this.context.canvas.width` (the source carries a "TODO: allow overwrite"
above it). -/
def getWidth (r : RecorderDims) : ℕ :=
  jsOrNat r.context.drawingBufferWidth r.context.canvasWidth

/-- The getter `get height()`: `this.context.drawingBufferHeight ||
this.context.canvas.height`. -/
def getHeight (r : RecorderDims) : ℕ :=
  jsOrNat r.context.drawingBufferHeight r.context.canvasHeight

/-- The setter `set width(value)`: assigns `this.encoder.width = value`. -/
def setWidth (r : RecorderDims) (value : ℕ) : RecorderDims :=
  { r with encoderWidth := some value }

/-- The setter `set height(value)`: assigns `this.encoder.height = value`. -/
def setHeight (r : RecorderDims) (value : ℕ) : RecorderDims :=
  { r with encoderHeight := some value }

/-- A 2D-like surface whose canvas is 100×100, with no value yet assigned
to the encoder's dimensions. -/
def dimsExample : RecorderDims :=
  { context := { drawingBufferWidth := none, drawingBufferHeight := none,
                 canvasWidth := 100, canvasHeight := 100 },
    encoderWidth := none, encoderHeight := none }

/-- The timing part of the session invariant, in its amended form: the
logical time equals the frame index over the frame rate, and the frame
index never passes `frameTotal` by a full frame (`frameIndex < frameTotal
+ 1`; when `frameTotal` is an integer this is `frameIndex ≤ frameTotal`).
The bound concerns real frame totals; the `-Infinity`/`NaN` arms are
unreachable under the validity hypotheses of the theorems using this. -/
def TimingInvariant (frameRate : ℚ) (s : RecState) : Prop :=
  s.time = (s.frame : ℚ) / frameRate ∧
  (match s.frameTotal with
   | JNum.fin q => (s.frame : ℚ) < q + 1
   | JNum.inf => True
   | JNum.negInf => True
   | JNum.nan => True)

/-- Strengthened induction invariant: the timing fields `init()` set and
`step()` maintains. -/
def StepInv (duration : JNum) (frameRate : ℚ) (s : RecState) : Prop :=
  s.deltaTime = 1 / frameRate ∧
  s.frameTotal = duration.mul frameRate ∧
  TimingInvariant frameRate s

/-- All events emitted during one session used as documented: construction,
one `start()`, then any finite sequence of caller-issued `step()` and
`stop()` calls (sessions are single-use: the source restarts recording only
through a fresh `Recorder`). -/
def sessionEvents (duration : JNum) (frameRate : ℚ) (calls : List Call) :
    List Event :=
  construct.2 ++ (Recorder.start duration frameRate construct.1).2 ++
    (runCalls calls (Recorder.start duration frameRate construct.1).1).2

/-! Helper lemmas shared by the claim theorems. -/

theorem stop_of_ne_recording (s : RecState)
    (h : s.status ≠ RecorderStatus.Recording) :
    Recorder.stop s = (s, [], none) := by
  simp [Recorder.stop, h]

theorem step_of_ne_recording (s : RecState)
    (h : s.status ≠ RecorderStatus.Recording) :
    Recorder.step s = (s, []) := by
  simp [Recorder.step, fun hr => h hr, stop_of_ne_recording s h]

theorem runCalls_of_stopped (cs : List Call) (s : RecState)
    (h : s.status = RecorderStatus.Stopped) :
    runCalls cs s = (s, []) := by
  induction cs with
  | nil => rfl
  | cons c cs ih =>
    have hne : s.status ≠ RecorderStatus.Recording := by
      rw [h]; intro hc; exact absurd hc (by decide)
    cases c with
    | step => simp [runCalls, step_of_ne_recording s hne, ih]
    | stop => simp [runCalls, stop_of_ne_recording s hne, ih]

/-- Events of a `step()` that encodes a frame, together with the updated
state. -/
theorem step_of_encoding (s : RecState)
    (hrec : s.status = RecorderStatus.Recording)
    (hlt : JNum.natLt s.frame s.frameTotal) :
    Recorder.step s =
      ({ s with time := s.time + s.deltaTime, frame := s.frame + 1 },
       [Event.encode s.frame]) := by
  simp [Recorder.step, hrec, hlt]

/-- Running `n` steps from a `Recording` state whose next `n` frame indices
all stay below `frameTotal` encodes exactly those `n` frames. -/
theorem runSteps_encodes (n : ℕ) (s : RecState)
    (hrec : s.status = RecorderStatus.Recording)
    (hlt : ∀ i, i < n → JNum.natLt (s.frame + i) s.frameTotal) :
    runSteps n s =
      ({ s with frame := s.frame + n,
                time := s.time + (n : ℚ) * s.deltaTime },
       (List.range n).map fun i => Event.encode (s.frame + i)) := by
  induction n generalizing s with
  | zero => simp [runSteps]
  | succ n ih =>
    have h0 : JNum.natLt s.frame s.frameTotal := by
      have := hlt 0 (Nat.succ_pos n)
      simpa using this
    have hstep := step_of_encoding s hrec h0
    have hrec1 :
        ({ s with time := s.time + s.deltaTime,
                  frame := s.frame + 1 } : RecState).status =
          RecorderStatus.Recording := hrec
    have hlt1 : ∀ i, i < n →
        JNum.natLt (({ s with time := s.time + s.deltaTime,
                              frame := s.frame + 1 } : RecState).frame + i)
          ({ s with time := s.time + s.deltaTime,
                    frame := s.frame + 1 } : RecState).frameTotal := by
      intro i hi
      have := hlt (i + 1) (by omega)
      simpa [Nat.add_assoc, Nat.add_comm 1 i] using this
    have hrun := ih _ hrec1 hlt1
    simp [runSteps, hstep, hrun]
    constructor
    · constructor
      · ring
      · omega
    · rw [List.range_succ_eq_map]
      simp [Nat.add_assoc, Nat.add_comm 1]

theorem runSteps_add (m n : ℕ) (s : RecState) :
    runSteps (m + n) s =
      ((runSteps n (runSteps m s).1).1,
       (runSteps m s).2 ++ (runSteps n (runSteps m s).1).2) := by
  induction m generalizing s with
  | zero => simp [runSteps]
  | succ m ih =>
    have : m + 1 + n = (m + n) + 1 := by omega
    rw [this]
    simp only [runSteps, ih]
    simp [List.append_assoc]

/-- C4: for every status other than `Recording`, `stop()` returns
`undefined` immediately: no observer call, no `encoder.stop`, no artifact,
and the session state is unchanged. -/
theorem stop_noop_when_not_recording (s : RecState)
    (h : s.status ≠ RecorderStatus.Recording) :
    Recorder.stop s = (s, [], none) :=
  stop_of_ne_recording s h

/-- Witness for C4: a freshly constructed recorder (status `Ready`) is left
untouched by `stop()`. -/
theorem stop_noop_when_not_recording_witness :
    construct.1.status ≠ RecorderStatus.Recording ∧
      Recorder.stop construct.1 = (construct.1, [], none) :=
  ⟨by decide, stop_noop_when_not_recording construct.1 (by decide)⟩

/-- C10: `step()` on a session whose status is not `Recording` delegates to
`stop()`, whose guard returns immediately: no `encoder.encode` call, no
event, and `frame`, `time` and `status` are unchanged. -/
theorem step_noop_when_not_recording (s : RecState)
    (h : s.status ≠ RecorderStatus.Recording) :
    Recorder.step s = (s, []) :=
  step_of_ne_recording s h

/-- Witness for C10: `step()` on a `Stopped` session changes nothing and
emits nothing. -/
theorem step_noop_when_not_recording_witness :
    ({ status := RecorderStatus.Stopped, time := 1, frame := 3,
       deltaTime := 1, frameTotal := JNum.fin 3 } : RecState).status ≠
        RecorderStatus.Recording ∧
      Recorder.step
        { status := RecorderStatus.Stopped, time := 1, frame := 3,
          deltaTime := 1, frameTotal := JNum.fin 3 } =
        ({ status := RecorderStatus.Stopped, time := 1, frame := 3,
           deltaTime := 1, frameTotal := JNum.fin 3 }, []) :=
  ⟨by decide,
   step_noop_when_not_recording
     { status := RecorderStatus.Stopped, time := 1, frame := 3,
       deltaTime := 1, frameTotal := JNum.fin 3 } (by decide)⟩

/-- C6: extension resolution keeps a requested extension the encoder
supports (no warning), and otherwise resolves to the encoder's first
supported extension while emitting exactly one warning. -/
theorem getSupportedExtension_spec (extension : String)
    (supportedExtensions : List String) :
    (extension ∈ supportedExtensions →
      getSupportedExtension extension supportedExtensions =
        (some extension, 0)) ∧
    (extension ∉ supportedExtensions →
      getSupportedExtension extension supportedExtensions =
        (supportedExtensions.head?, 1)) := by
  constructor
  · intro h
    simp [getSupportedExtension, h]
  · intro h
    simp [getSupportedExtension, h]

/-- Witness for C6: requesting "mov" against ["mp4", "webm"] resolves to
"mp4" with exactly one warning. -/
theorem getSupportedExtension_spec_witness :
    getSupportedExtension "mov" ["mp4", "webm"] = (some "mp4", 1) :=
  (getSupportedExtension_spec "mov" ["mp4", "webm"]).2 (by decide)

/-- C7: encoder selection priority — a supplied encoder wins outright,
"gif" selects the GIF backend, "png"/"jpg" select the frame-sequence
backend, and any other extension selects WebCodecs when supported, else
the WASM H264MP4 backend. -/
theorem selectEncoder_spec (e : EncoderBackend) (extension : String)
    (w : Bool) :
    selectEncoder (some e) extension w = e ∧
    selectEncoder none "gif" w = EncoderBackend.GIFEncoder ∧
    selectEncoder none "png" w = EncoderBackend.FrameEncoder ∧
    selectEncoder none "jpg" w = EncoderBackend.FrameEncoder ∧
    (extension ≠ "gif" → extension ≠ "png" → extension ≠ "jpg" →
      selectEncoder none extension w =
        if w then EncoderBackend.WebCodecsEncoder
        else EncoderBackend.H264MP4Encoder) := by
  refine ⟨rfl, rfl, rfl, rfl, ?_⟩
  intro h1 h2 h3
  simp [selectEncoder, h1, h2, h3]

/-- Witness for C7: with no supplied encoder and extension "mp4", the
WebCodecs backend is chosen when supported. -/
theorem selectEncoder_spec_witness :
    selectEncoder none "mp4" true = EncoderBackend.WebCodecsEncoder := by
  have h := (selectEncoder_spec EncoderBackend.GIFEncoder "mp4" true).2.2.2.2
    (by decide) (by decide) (by decide)
  simpa using h

/-- Counterexample for C9: assigning 50 to the recorder's `width` does not
make subsequent reads return 50 — the getter still reads the surface
dimension (100). -/
theorem width_override_counterexample :
    getWidth (setWidth dimsExample 50) = 100 ∧
      getWidth (setWidth dimsExample 50) ≠ 50 := by
  decide

/-- C9 (amended): the recorder's `width`/`height` getters always return the
surface dimensions (`drawingBufferWidth`/`drawingBufferHeight`, falling back
to the canvas dimensions when those are `undefined` or 0); assigning the
`width`/`height` properties only forwards the value to the encoder's
`width`/`height` fields and never changes what subsequent reads return. -/
theorem width_height_accessors_spec (r : RecorderDims) (v : ℕ) :
    getWidth (setWidth r v) = getWidth r ∧
    getHeight (setHeight r v) = getHeight r ∧
    (setWidth r v).encoderWidth = some v ∧
    (setHeight r v).encoderHeight = some v ∧
    getWidth r = jsOrNat r.context.drawingBufferWidth r.context.canvasWidth ∧
    getHeight r =
      jsOrNat r.context.drawingBufferHeight r.context.canvasHeight := by
  exact ⟨rfl, rfl, rfl, rfl, rfl, rfl⟩

/-- C5: with `duration = Infinity` and a positive frame rate (so that
`frameTotal = Infinity * frameRate` is `Infinity` and not `NaN` or
`-Infinity`), the session is still `Recording` after `start()` and any
finite number of `step()` calls — no step ever emits a `Stopping` status
change — while an explicit `stop()` call from any such state does
transition the session to `Stopped`. -/
theorem infinite_duration_never_self_stops (frameRate : ℚ) (n : ℕ)
    (hfr : 0 < frameRate) :
    ((runSteps n (Recorder.start JNum.inf frameRate construct.1).1).1.status
        = RecorderStatus.Recording) ∧
    (Event.statusChange RecorderStatus.Stopping ∉
        (runSteps n (Recorder.start JNum.inf frameRate construct.1).1).2) ∧
    ((Recorder.stop
        (runSteps n
          (Recorder.start JNum.inf frameRate construct.1).1).1).1.status
        = RecorderStatus.Stopped) := by
  have hmul : JNum.mul JNum.inf frameRate = JNum.inf := by
    simp [JNum.mul, hfr]
  have hstart : (Recorder.start JNum.inf frameRate construct.1).1
      = (Recorder.step
          { status := RecorderStatus.Recording, time := 0, frame := 0,
            deltaTime := 1 / frameRate,
            frameTotal := JNum.mul JNum.inf frameRate }).1 := rfl
  rw [hmul] at hstart
  have hstep := step_of_encoding
    { status := RecorderStatus.Recording, time := 0, frame := 0,
      deltaTime := 1 / frameRate, frameTotal := JNum.inf }
    rfl trivial
  rw [hstep] at hstart
  have h1 : (Recorder.start JNum.inf frameRate construct.1).1.status
      = RecorderStatus.Recording := by rw [hstart]
  have hlt : ∀ i, i < n →
      JNum.natLt ((Recorder.start JNum.inf frameRate construct.1).1.frame + i)
        (Recorder.start JNum.inf frameRate construct.1).1.frameTotal := by
    intro i _
    rw [hstart]
    trivial
  have hrun := runSteps_encodes n _ h1 hlt
  refine ⟨?_, ?_, ?_⟩
  · rw [hrun]
    exact h1
  · rw [hrun]
    simp
  · rw [hrun]
    simp [Recorder.stop, h1]

/-- Witness for C5: `duration = Infinity` at 1 fps is still `Recording`
after `start()` and two further steps, with no `Stopping` notification,
and an explicit `stop()` then reaches `Stopped`. -/
theorem infinite_duration_never_self_stops_witness :
    ((runSteps 2 (Recorder.start JNum.inf 1 construct.1).1).1.status
        = RecorderStatus.Recording) ∧
    (Event.statusChange RecorderStatus.Stopping ∉
        (runSteps 2 (Recorder.start JNum.inf 1 construct.1).1).2) ∧
    ((Recorder.stop
        (runSteps 2 (Recorder.start JNum.inf 1 construct.1).1).1).1.status
        = RecorderStatus.Stopped) :=
  infinite_duration_never_self_stops 1 2 (by norm_num)

/-- Counterexample for C1: duration 1/2 s at 1 fps is a valid pair, yet a
full recording (start, then stepping until the self-stop) ends with
`frameIndex = 1 ≠ frameTotal = 1/2` and `logicalTime = 1 ≠ duration = 1/2`
— exactly, not merely beyond floating-point epsilon. -/
theorem full_recording_mismatch_counterexample :
    ((runSteps 1 (Recorder.start (JNum.fin (1 / 2)) 1 construct.1).1).1.status
        = RecorderStatus.Stopped) ∧
    ((runSteps 1
        (Recorder.start (JNum.fin (1 / 2)) 1 construct.1).1).1.frameTotal
        = JNum.fin (1 / 2)) ∧
    (((runSteps 1
        (Recorder.start (JNum.fin (1 / 2)) 1 construct.1).1).1.frame : ℚ)
        ≠ 1 / 2) ∧
    ((runSteps 1 (Recorder.start (JNum.fin (1 / 2)) 1 construct.1).1).1.time
        ≠ 1 / 2) := by
  norm_num [runSteps, Recorder.start, Recorder.init, Recorder.step,
    Recorder.stop, construct, JNum.mul, JNum.natLt]

/-- C1 (amended): `init()` always sets `frameTotal = duration * frameRate`;
whenever `duration * frameRate` is a whole number `N` of frames (and the
frame rate is positive), a full recording — `start()` followed by stepping
until the self-stop — ends `Stopped` with `frameIndex = N = frameTotal` and
`logicalTime = duration` exactly. -/
theorem full_recording_reaches_total (d frameRate : ℚ) (N : ℕ)
    (hfr : 0 < frameRate) (hN : d * frameRate = (N : ℚ)) :
    ((Recorder.init (JNum.fin d) frameRate construct.1).1.frameTotal
        = JNum.fin (d * frameRate)) ∧
    ((runSteps N (Recorder.start (JNum.fin d) frameRate construct.1).1).1.status
        = RecorderStatus.Stopped) ∧
    ((runSteps N
        (Recorder.start (JNum.fin d) frameRate construct.1).1).1.frameTotal
        = JNum.fin ((N : ℚ))) ∧
    ((runSteps N (Recorder.start (JNum.fin d) frameRate construct.1).1).1.frame
        = N) ∧
    ((runSteps N (Recorder.start (JNum.fin d) frameRate construct.1).1).1.time
        = d) := by
  have hfr0 : frameRate ≠ 0 := ne_of_gt hfr
  have hd : d = (N : ℚ) / frameRate := by
    rw [eq_div_iff hfr0]
    exact hN
  have hstart : (Recorder.start (JNum.fin d) frameRate construct.1).1
      = (Recorder.step
          { status := RecorderStatus.Recording, time := 0, frame := 0,
            deltaTime := 1 / frameRate,
            frameTotal := JNum.fin (d * frameRate) }).1 := rfl
  refine ⟨rfl, ?_⟩
  rw [hstart]
  cases N with
  | zero =>
    have hz : d * frameRate = 0 := by simpa using hN
    have hstep : Recorder.step
        { status := RecorderStatus.Recording, time := 0, frame := 0,
          deltaTime := 1 / frameRate,
          frameTotal := JNum.fin (d * frameRate) }
        = ({ status := RecorderStatus.Stopped, time := 0, frame := 0,
             deltaTime := 1 / frameRate,
             frameTotal := JNum.fin (d * frameRate) },
           [Event.statusChange RecorderStatus.Stopping, Event.encoderStop,
            Event.statusChange RecorderStatus.Stopped]) := by
      simp [Recorder.step, Recorder.stop, JNum.natLt, hz]
    rw [hstep]
    have htime : d = 0 := by
      rcases mul_eq_zero.mp hz with h | h
      · exact h
      · exact absurd h hfr0
    simp [runSteps, hz, htime]
  | succ M =>
    have hpos : JNum.natLt 0 (JNum.fin (d * frameRate)) := by
      show ((0 : ℕ) : ℚ) < d * frameRate
      rw [hN]
      exact_mod_cast Nat.succ_pos M
    have hstep := step_of_encoding
      { status := RecorderStatus.Recording, time := 0, frame := 0,
        deltaTime := 1 / frameRate, frameTotal := JNum.fin (d * frameRate) }
      rfl hpos
    rw [hstep]
    have hrunM := runSteps_encodes M
      { status := RecorderStatus.Recording, time := 0 + 1 / frameRate,
        frame := 0 + 1, deltaTime := 1 / frameRate,
        frameTotal := JNum.fin (d * frameRate) }
      rfl
      (by
        intro i hi
        show ((0 + 1 + i : ℕ) : ℚ) < d * frameRate
        rw [hN]
        exact_mod_cast by omega)
    have hadd := runSteps_add M 1
      { status := RecorderStatus.Recording, time := 0 + 1 / frameRate,
        frame := 0 + 1, deltaTime := 1 / frameRate,
        frameTotal := JNum.fin (d * frameRate) }
    have hfinal : Recorder.step
        ({ status := RecorderStatus.Recording,
           time := (0 + 1 / frameRate) + (M : ℚ) * (1 / frameRate),
           frame := (0 + 1) + M, deltaTime := 1 / frameRate,
           frameTotal := JNum.fin (d * frameRate) } : RecState)
        = (({ status := RecorderStatus.Stopped,
              time := (0 + 1 / frameRate) + (M : ℚ) * (1 / frameRate),
              frame := (0 + 1) + M, deltaTime := 1 / frameRate,
              frameTotal := JNum.fin (d * frameRate) } : RecState),
           [Event.statusChange RecorderStatus.Stopping, Event.encoderStop,
            Event.statusChange RecorderStatus.Stopped]) := by
      have hnot : ¬ JNum.natLt ((0 + 1) + M) (JNum.fin (d * frameRate)) := by
        show ¬ (((0 + 1 + M : ℕ) : ℚ) < d * frameRate)
        rw [hN]
        intro hcon
        have : (0 + 1 + M : ℕ) < M + 1 := by exact_mod_cast hcon
        omega
      simp [Recorder.step, Recorder.stop, hnot]
    rw [hadd, hrunM]
    simp only [runSteps, hfinal]
    refine ⟨trivial, ?_, ?_, ?_⟩
    · rw [hN]
    · show (0 + 1) + M = M + 1
      omega
    · show (0 : ℚ) + 1 / frameRate + (M : ℚ) * (1 / frameRate) = d
      rw [hd]
      field_simp
      ring

/-- Witness for C1 (amended): duration 2 s at 1 fps records exactly two
frames and ends with `frameIndex = frameTotal = 2` and `logicalTime = 2`. -/
theorem full_recording_reaches_total_witness :
    ((Recorder.init (JNum.fin 2) 1 construct.1).1.frameTotal
        = JNum.fin (2 * 1)) ∧
    ((runSteps 2 (Recorder.start (JNum.fin 2) 1 construct.1).1).1.status
        = RecorderStatus.Stopped) ∧
    ((runSteps 2 (Recorder.start (JNum.fin 2) 1 construct.1).1).1.frameTotal
        = JNum.fin ((2 : ℕ) : ℚ)) ∧
    ((runSteps 2 (Recorder.start (JNum.fin 2) 1 construct.1).1).1.frame
        = 2) ∧
    ((runSteps 2 (Recorder.start (JNum.fin 2) 1 construct.1).1).1.time
        = 2) :=
  full_recording_reaches_total 2 1 2 (by norm_num) (by norm_num)

theorem step_preserves_StepInv (duration : JNum) (frameRate : ℚ)
    (s : RecState) (h : StepInv duration frameRate s) :
    StepInv duration frameRate (Recorder.step s).1 := by
  obtain ⟨hdt, hft, htime, hbound⟩ := h
  by_cases hg : s.status = RecorderStatus.Recording ∧
      JNum.natLt s.frame s.frameTotal
  · rw [Recorder.step, if_pos hg]
    refine ⟨hdt, hft, ?_, ?_⟩
    · show s.time + s.deltaTime = ((s.frame + 1 : ℕ) : ℚ) / frameRate
      rw [htime, hdt]
      push_cast
      rw [div_add_div_same]
    · show (match s.frameTotal with
        | JNum.fin q => ((s.frame + 1 : ℕ) : ℚ) < q + 1
        | JNum.inf => True
        | JNum.negInf => True
        | JNum.nan => True)
      cases hft2 : s.frameTotal with
      | fin q =>
        have hlt := hg.2
        rw [hft2] at hlt hbound
        have : (s.frame : ℚ) < q := hlt
        push_cast
        linarith
      | inf => trivial
      | negInf => trivial
      | nan => trivial
  · rw [Recorder.step, if_neg hg]
    by_cases hs : s.status ≠ RecorderStatus.Recording
    · rw [stop_of_ne_recording s hs]
      exact ⟨hdt, hft, htime, hbound⟩
    · rw [Recorder.stop, if_neg hs]
      exact ⟨hdt, hft, htime, hbound⟩

theorem runSteps_preserves_StepInv (duration : JNum) (frameRate : ℚ)
    (n : ℕ) (s : RecState) (h : StepInv duration frameRate s) :
    StepInv duration frameRate (runSteps n s).1 := by
  induction n generalizing s with
  | zero => simpa [runSteps] using h
  | succ n ih =>
    simp only [runSteps]
    exact ih _ (step_preserves_StepInv duration frameRate s h)

/-- Counterexample for C3: with the valid pair duration 1/2 s at 1 fps,
the state right after `start()` (i.e. after `init()` and one `step()`) has
`frameIndex = 1` while `frameTotal = 1/2`, violating the claimed
`frameIndex ≤ frameTotal`. -/
theorem timing_invariant_counterexample :
    ((Recorder.start (JNum.fin (1 / 2)) 1 construct.1).1.frameTotal
        = JNum.fin (1 / 2)) ∧
    ¬ (((Recorder.start (JNum.fin (1 / 2)) 1 construct.1).1.frame : ℚ)
        ≤ 1 / 2) := by
  norm_num [Recorder.start, Recorder.init, Recorder.step, Recorder.stop,
    construct, JNum.mul, JNum.natLt]

/-- C3 (amended): for a valid configuration (positive frame rate,
nonnegative or infinite duration), after `init()` and after every `step()`
the session satisfies `0 ≤ frameIndex` (by type), `logicalTime = frameIndex
/ frameRate` exactly, and `frameIndex < frameTotal + 1` — which is the
claimed `frameIndex ≤ frameTotal` whenever `frameTotal = duration *
frameRate` is an integer, and is the tight bound in general since the last
encoded frame may overshoot a fractional `frameTotal` by less than one. -/
theorem timing_invariant_holds (duration : JNum) (frameRate : ℚ)
    (hfr : 0 < frameRate) (hdur : duration.Nonneg) :
    TimingInvariant frameRate
      (Recorder.init duration frameRate construct.1).1 ∧
    ∀ n : ℕ, TimingInvariant frameRate
      (runSteps n (Recorder.start duration frameRate construct.1).1).1 := by
  have hinit : StepInv duration frameRate
      (Recorder.init duration frameRate construct.1).1 := by
    refine ⟨rfl, rfl, ?_, ?_⟩
    · show (0 : ℚ) = ((0 : ℕ) : ℚ) / frameRate
      simp
    · show (match JNum.mul duration frameRate with
        | JNum.fin q => ((0 : ℕ) : ℚ) < q + 1
        | JNum.inf => True
        | JNum.negInf => True
        | JNum.nan => True)
      cases duration with
      | fin q0 =>
        show ((0 : ℕ) : ℚ) < q0 * frameRate + 1
        have h0 : (0 : ℚ) ≤ q0 := hdur
        push_cast
        nlinarith
      | inf =>
        simp only [JNum.mul, if_pos hfr]
      | negInf => exact hdur.elim
      | nan => exact hdur.elim
  constructor
  · exact hinit.2.2
  · intro n
    have hstart : (Recorder.start duration frameRate construct.1).1
        = (Recorder.step
            { status := RecorderStatus.Recording, time := 0, frame := 0,
              deltaTime := 1 / frameRate,
              frameTotal := duration.mul frameRate }).1 := rfl
    rw [hstart]
    have hs2 : StepInv duration frameRate
        { status := RecorderStatus.Recording, time := 0, frame := 0,
          deltaTime := 1 / frameRate,
          frameTotal := duration.mul frameRate } := hinit
    exact (runSteps_preserves_StepInv duration frameRate n _
      (step_preserves_StepInv duration frameRate _ hs2)).2.2

/-- Witness for C3 (amended): duration 2 s at 1 fps, checked after `init()`
and after `start()` plus three further steps. -/
theorem timing_invariant_holds_witness :
    TimingInvariant 1 (Recorder.init (JNum.fin 2) 1 construct.1).1 ∧
    TimingInvariant 1
      (runSteps 3 (Recorder.start (JNum.fin 2) 1 construct.1).1).1 :=
  ⟨(timing_invariant_holds (JNum.fin 2) 1 (by norm_num)
      (by norm_num [JNum.Nonneg])).1,
   (timing_invariant_holds (JNum.fin 2) 1 (by norm_num)
      (by norm_num [JNum.Nonneg])).2 3⟩

theorem statusTrace_append (a b : List Event) :
    statusTrace (a ++ b) = statusTrace a ++ statusTrace b := by
  simp [statusTrace]

/-- Once a session is `Recording`, the remaining observer calls from any
sequence of `step()`/`stop()` calls form a subsequence of
`Stopping, Stopped`. -/
theorem runCalls_trace_of_recording (cs : List Call) (s : RecState)
    (h : s.status = RecorderStatus.Recording) :
    List.Sublist (statusTrace (runCalls cs s).2)
      [RecorderStatus.Stopping, RecorderStatus.Stopped] := by
  induction cs generalizing s with
  | nil => simp [runCalls, statusTrace]
  | cons c cs ih =>
    have hstop : Recorder.stop s
        = ({ s with status := RecorderStatus.Stopped },
           [Event.statusChange RecorderStatus.Stopping, Event.encoderStop,
            Event.statusChange RecorderStatus.Stopped], some ()) := by
      rw [Recorder.stop, if_neg (by simp [h])]
    have hstopped : ({ s with status := RecorderStatus.Stopped }
        : RecState).status = RecorderStatus.Stopped := rfl
    cases c with
    | step =>
      by_cases hlt : JNum.natLt s.frame s.frameTotal
      · have hstep := step_of_encoding s h hlt
        simp only [runCalls, hstep]
        rw [statusTrace_append]
        have ht := ih
          { s with time := s.time + s.deltaTime, frame := s.frame + 1 } h
        simpa [statusTrace] using ht
      · have hstep : Recorder.step s
            = ({ s with status := RecorderStatus.Stopped },
               [Event.statusChange RecorderStatus.Stopping, Event.encoderStop,
                Event.statusChange RecorderStatus.Stopped]) := by
          rw [Recorder.step, if_neg (by tauto), hstop]
        simp only [runCalls, hstep]
        rw [statusTrace_append]
        rw [runCalls_of_stopped cs _ hstopped]
        simp [statusTrace]
    | stop =>
      simp only [runCalls, hstop]
      rw [statusTrace_append]
      rw [runCalls_of_stopped cs _ hstopped]
      simp [statusTrace]

/-- C2: over any single-use execution — construction, `start()`, then any
finite sequence of `step()`/`stop()` calls, for any duration and frame
rate — the status values delivered to `onStatusChange` form a subsequence
of `Ready, Initializing, Initialized, Recording, Stopping, Stopped`
(`Initialized` being the value the source stores under that name), hence
never repeat and never go backwards. -/
theorem observed_statuses_monotone (duration : JNum) (frameRate : ℚ)
    (calls : List Call) :
    List.Sublist (statusTrace (sessionEvents duration frameRate calls))
      canonicalStatuses := by
  have hstart : Recorder.start duration frameRate construct.1
      = ((Recorder.step
            { status := RecorderStatus.Recording, time := 0, frame := 0,
              deltaTime := 1 / frameRate,
              frameTotal := duration.mul frameRate }).1,
         [Event.statusChange RecorderStatus.Initializing, Event.encoderInit,
          Event.statusChange RecorderStatus.Initialized] ++
           [Event.statusChange RecorderStatus.Recording] ++
           (Recorder.step
             { status := RecorderStatus.Recording, time := 0, frame := 0,
               deltaTime := 1 / frameRate,
               frameTotal := duration.mul frameRate }).2) := rfl
  by_cases hg : JNum.natLt 0 (duration.mul frameRate)
  · have hstep := step_of_encoding
      { status := RecorderStatus.Recording, time := 0, frame := 0,
        deltaTime := 1 / frameRate, frameTotal := duration.mul frameRate }
      rfl hg
    have ht := runCalls_trace_of_recording calls
      ({ status := RecorderStatus.Recording, time := 0 + 1 / frameRate,
         frame := 0 + 1, deltaTime := 1 / frameRate,
         frameTotal := duration.mul frameRate }) rfl
    simp only [sessionEvents, hstart, hstep]
    rw [statusTrace_append, statusTrace_append]
    simp only [construct, statusTrace, List.filterMap, canonicalStatuses]
    exact (((((ht.cons₂ _).cons₂ _).cons₂ _).cons₂ _))
  · have hstep : Recorder.step
        { status := RecorderStatus.Recording, time := 0, frame := 0,
          deltaTime := 1 / frameRate, frameTotal := duration.mul frameRate }
        = ({ status := RecorderStatus.Stopped, time := 0, frame := 0,
             deltaTime := 1 / frameRate,
             frameTotal := duration.mul frameRate },
           [Event.statusChange RecorderStatus.Stopping, Event.encoderStop,
            Event.statusChange RecorderStatus.Stopped]) := by
      rw [Recorder.step, if_neg (by simp [hg]), Recorder.stop,
        if_neg (by simp)]
    have hrest := runCalls_of_stopped calls
      ({ status := RecorderStatus.Stopped, time := 0, frame := 0,
         deltaTime := 1 / frameRate,
         frameTotal := duration.mul frameRate }) rfl
    simp only [sessionEvents, hstart, hstep, hrest]
    rw [statusTrace_append, statusTrace_append]
    simp [construct, statusTrace, canonicalStatuses]

/-- Row `r` of the flip loop's output (counted from the top of the flipped
buffer) is row `h - 1 - r` of its input, for every completed iteration. -/
theorem flipLoop_row (pixels acc : ℕ → ℕ) (row h : ℕ) :
    ∀ n, n ≤ h → ∀ r k, r < n → k < row →
      flipLoop pixels acc row ((h - 1) * row) n ((h - 1 - r) * row + k)
        = pixels (r * row + k) := by
  intro n
  induction n with
  | zero =>
    intro _ r k hr _
    omega
  | succ n ih =>
    intro hn r k hr hk
    have hdst : (h - 1) * row - n * row = (h - 1 - n) * row :=
      (Nat.sub_mul (h - 1) n row).symm
    by_cases hrn : r = n
    · subst hrn
      simp only [flipLoop, blockSet, hdst]
      rw [if_pos ⟨Nat.le_add_right _ _, by omega⟩]
      congr 1
      omega
    · have hrn2 : r < n := by omega
      have hge : (h - 1 - n) * row + row ≤ (h - 1 - r) * row + k := by
        have h1 : (h - 1 - n) + 1 ≤ h - 1 - r := by omega
        have h2 : ((h - 1 - n) + 1) * row ≤ (h - 1 - r) * row :=
          Nat.mul_le_mul_right row h1
        calc (h - 1 - n) * row + row = ((h - 1 - n) + 1) * row := by
              rw [Nat.succ_mul]
          _ ≤ (h - 1 - r) * row := h2
          _ ≤ (h - 1 - r) * row + k := Nat.le_add_right _ _
      simp only [flipLoop, blockSet, hdst]
      rw [if_neg (by omega)]
      exact ih (by omega) r k hrn2 hk

/-- C8: on the raw-pixel frame path for a context exposing
`drawingBufferWidth`, the buffer handed to `encode` is vertically flipped —
for every row index `j` below the height and byte offset `k` within a row
(`row = width * 4` RGBA bytes), output row `j` holds input row
`height - 1 - j`, so the encoder receives top-down data. -/
theorem pixel_rows_flipped (width height : ℕ) (pixels : ℕ → ℕ)
    (j k : ℕ) (hj : j < height) (hk : k < width * 4) :
    getFrameImageData width height pixels (j * (width * 4) + k)
      = pixels ((height - 1 - j) * (width * 4) + k) := by
  have hmain := flipLoop_row pixels (fun _ => 0) (width * 4) height height
    (le_refl height) (height - 1 - j) k (by omega) hk
  have hjj : height - 1 - (height - 1 - j) = j := by omega
  rw [hjj] at hmain
  simp only [getFrameImageData, flipVertical]
  exact hmain

/-- Witness for C8: a 1×2 surface whose raw buffer is the identity byte
pattern; output byte 0 (row 0) is input byte 4 (start of row 1). -/
theorem pixel_rows_flipped_witness :
    getFrameImageData 1 2 (fun i => i) 0 = 4 := by
  have h := pixel_rows_flipped 1 2 (fun i => i) 0 0 (by norm_num)
    (by norm_num)
  simpa using h

end CanvasRecord
